import Mathlib

/-!
Verification of the spacedl package (qitoi/space-dl): a shallow embedding of
`twitter.go` (GraphQL client: response classification, guest-token retry,
client initialization, operation discovery) and `downloader.go` (HLS segment
capture engine: playlist polling, segment de-duplication, consecutive-error
halting).  Network effects are represented by explicit result scripts: each
fallible external step (HTTP fetch, JSON decode, playlist decode, URL
resolution) is an input value of an `Except`/`Option` type, and the Go control
flow over those results is embedded faithfully.  A Go run-time panic is
modelled as `Option.none` of the enclosing function.
-/

namespace Spacedl

/-- The fixed auth-rejection message, `queryErrBadGuestToken` in `twitter.go`. -/
def queryErrBadGuestToken : String := "Bad guest token"

/-- One entry of the `Errors` JSON array (`twitter.go`): only the `message`
field and the `extensions.classification` field carry data used by the code. -/
structure ErrEntry where
  message : String
  classification : String
deriving Repr, DecidableEq

/-- `strings.EqualFold` on the strings the code compares (ASCII case
folding): both sides are lower-cased character by character. -/
def eqFold (a b : String) : Bool :=
  a.data.map Char.toLower == b.data.map Char.toLower

/-- Result of `parseResponse` (`twitter.go` lines 425-463): `success` models a
`nil` error return, `queryErr` models returning a `*QueryError` (carrying the
structured error list, the numeric status code and the raw status text), and
`decodeErr` models returning a JSON decode/marshal error. -/
inductive ParseResult where
  | success
  | queryErr (errs : List ErrEntry) (statusCode : Nat) (status : String)
  | decodeErr (e : String)
deriving Repr, DecidableEq

/-- Embedding of `parseResponse` (`twitter.go`).  The four JSON steps (decode
the body into a raw map, unmarshal the `errors` key, re-marshal, unmarshal
into `out`) are scripted as one `Except` input `body`: `.error e` when any of
them fails, `.ok errs` with the extracted error list otherwise.  The
classification logic is embedded verbatim: status 200 returns `nil` first;
otherwise a non-empty error list or a 4xx/5xx status yields a `QueryError`;
otherwise `nil`. -/
def parseResponse (statusCode : Nat) (status : String)
    (body : Except String (List ErrEntry)) : ParseResult :=
  match body with
  | .error e => .decodeErr e
  | .ok errs =>
    if statusCode = 200 then
      .success
    else
      let s := statusCode / 100
      if 0 < errs.length ∨ s = 4 ∨ s = 5 then
        .queryErr errs statusCode status
      else
        .success

/-- The auth-rejection test performed by `Client.Query`: the result is a
`QueryError` and some entry's message equals `queryErrBadGuestToken` under
`strings.EqualFold`. -/
def isAuthReject : ParseResult → Bool
  | .queryErr errs _ _ => errs.any (fun e => eqFold e.message queryErrBadGuestToken)
  | _ => false

/-- Final outcome of a `Client.Query` call: either a surfaced attempt result
(the `return err` / `return nil` paths) or a guest-token refresh failure
(the `return err` inside the retry branch). -/
inductive QueryOutcome where
  | attempt (a : ParseResult)
  | refreshErr (e : String)
deriving Repr, DecidableEq

/-- Embedding of the retry loop of `Client.Query` (`twitter.go` lines 388-423)
after operation lookup and parameter marshalling have succeeded.  `attempts`
scripts the `parseResponse` result of each successive HTTP attempt and
`refreshes` scripts each `refreshGuestToken` call (`none` = success,
`some e` = failure).  The Go code, on an auth-rejected attempt, refreshes and
then recursively calls `Query` with no retry counter; the recursion here
consumes the scripts, and an exhausted script returns `Option.none` (the Go
call would still be running).  The returned `Nat` counts the
`refreshGuestToken` calls performed. -/
def queryRun : List ParseResult → List (Option String) → Option (QueryOutcome × Nat)
  | [], _ => none
  | a :: as, refreshes =>
    if isAuthReject a then
      match refreshes with
      | [] => none
      | r :: rs =>
        match r with
        | some e => some (.refreshErr e, 1)
        | none =>
          match queryRun as rs with
          | none => none
          | some (o, n) => some (o, n + 1)
    else
      some (.attempt a, 0)

/-- `Operation` (`twitter.go`): a discovered GraphQL operation. -/
structure Operation where
  queryID : String
  operationName : String
  operationType : String
deriving Repr, DecidableEq

/-- The mutable fields of `Client` (`twitter.go`) that `Client.Initialize`
assigns: the operation catalog, the bearer token and the guest token.  The
catalog map is modelled as an association list. -/
structure ClientState where
  operations : List (String × Operation)
  bearerToken : String
  guestToken : String
deriving Repr, DecidableEq

/-- Scripted outcomes of the six steps of `Client.Initialize`, in order:
`getIndex`, `getMainJsURL`, `getApiJsURL`, `getOperations`, `getBearerToken`,
`refreshGuestToken` (via `getGuestToken`). -/
structure InitScript where
  indexRes : Except String Unit
  mainJsRes : Except String String
  apiJsRes : Except String String
  opsRes : Except String (List (String × Operation))
  bearerRes : Except String String
  guestRes : Except String String
deriving Repr

/-- Embedding of `Client.Initialize` (`twitter.go` lines 244-280).  Each step
that fails returns its error immediately (`return err`); `c.operations` is
assigned as soon as `getOperations` succeeds; the Go multiple assignment
`c.bearerToken, err = c.getBearerToken(...)` stores the returned string even
on failure, and every failure path of `getBearerToken` returns the empty
string; `refreshGuestToken` assigns `c.guestToken` only on success. -/
def initClient (st : ClientState) (sc : InitScript) : Option String × ClientState :=
  match sc.indexRes with
  | .error e => (some e, st)
  | .ok _ =>
    match sc.mainJsRes with
    | .error e => (some e, st)
    | .ok _ =>
      match sc.apiJsRes with
      | .error e => (some e, st)
      | .ok _ =>
        match sc.opsRes with
        | .error e => (some e, st)
        | .ok ops =>
          let st1 := { st with operations := ops }
          match sc.bearerRes with
          | .error e => (some e, { st1 with bearerToken := "" })
          | .ok tok =>
            let st2 := { st1 with bearerToken := tok }
            match sc.guestRes with
            | .error e => (some e, st2)
            | .ok gt => (none, { st2 with guestToken := gt })

/-- `playlistDownloadErrorLimit` (`downloader.go` line 34). -/
def playlistDownloadErrorLimit : Nat := 30

/-- The discriminated playlist kind returned by the `m3u8` decoder
(`m3u8.MEDIA` versus `m3u8.MASTER`). -/
inductive PlaylistKind where
  | media
  | master
deriving Repr, DecidableEq

/-- One HLS segment descriptor as used by `Downloader.getSegments`: the
`SeqId` sequence identifier and the (relative) `URI`. -/
structure Segment where
  seqId : Nat
  uri : String
deriving Repr, DecidableEq

/-- The segment loop of `Downloader.getSegments` (`downloader.go` lines
150-163).  `resolve` scripts `u.Parse(seg.URI)` (URL resolution against the
playlist base URL; `none` = parse error, which is only logged).  `seen` is the
`d.seq` concurrent map, modelled as the list of stored `SeqId`s, most recent
first.  For each non-nil segment whose id is not yet stored, the code resolves
the URL (possibly `nil`), stores the id, and appends the resolved URL —
resolution failure neither skips the store nor the append.  Returns the
updated seen list and the `urls` slice built by the loop. -/
def getSegmentsLoop (resolve : String → Option String) (seen : List Nat) :
    List (Option Segment) → List Nat × List (Option String)
  | [] => (seen, [])
  | none :: rest => getSegmentsLoop resolve seen rest
  | some seg :: rest =>
    if seg.seqId ∈ seen then
      getSegmentsLoop resolve seen rest
    else
      let segURL := resolve seg.uri
      let r := getSegmentsLoop resolve (seg.seqId :: seen) rest
      (r.1, segURL :: r.2)

/-- Embedding of `Downloader.getSegments` (`downloader.go` lines 118-166).
`fetched` scripts the HTTP fetch plus `m3u8.DecodeFrom`: `.error e` for a
transport/decode failure, `.ok (kind, segs)` for a decoded playlist of the
given kind with its segment slice (entries may be `nil`).  A non-media kind
(or a playlist value that is not a `*m3u8.MediaPlaylist`) returns the error
`"invalid playlist"` before any segment is examined. -/
def getSegments (resolve : String → Option String) (seen : List Nat)
    (fetched : Except String (PlaylistKind × List (Option Segment))) :
    Except String (List Nat × List (Option String)) :=
  match fetched with
  | .error e => .error e
  | .ok (kind, segs) =>
    if kind = PlaylistKind.media then
      .ok (getSegmentsLoop resolve seen segs)
    else
      .error "invalid playlist"

/-- State of the polling goroutine of `Downloader.Start` (`downloader.go`
lines 66-92): the seen-set `d.seq`, the consecutive-error counter `errCount`,
whether the halt channel has been closed by the engine itself
(`d.Halt()` called after exceeding the error limit), and the sequence of
values sent on the `d.dlCh` download channel so far. -/
structure PollerSt where
  seen : List Nat
  errCount : Nat
  halted : Bool
  queued : List (Option String)
deriving Repr, DecidableEq

/-- The fresh state installed by `Downloader.Start` (`downloader.go` lines
60-63): empty seen-set, zero error count, open halt channel, empty channel. -/
def startSt : PollerSt := ⟨[], 0, false, []⟩

/-- One ticker tick of the polling goroutine (`downloader.go` lines 75-89):
on a failed `getSegments` the error counter is incremented and, if it exceeds
`playlistDownloadErrorLimit`, the engine calls `d.Halt()` and breaks the loop;
on success the counter resets to zero and every returned URL (nil included)
is sent on `d.dlCh`. -/
def pollStep (resolve : String → Option String) (st : PollerSt)
    (fetched : Except String (PlaylistKind × List (Option Segment))) : PollerSt :=
  match getSegments resolve st.seen fetched with
  | .error _ =>
    let c := st.errCount + 1
    if c > playlistDownloadErrorLimit then
      { st with errCount := c, halted := true }
    else
      { st with errCount := c }
  | .ok (seen', urls) =>
    { st with seen := seen', errCount := 0, queued := st.queued ++ urls }

/-- The polling goroutine run over a script of tick results: each loop
iteration first selects on the halt channel (breaking if it is closed) and
otherwise processes one tick.  Once `halted` is set the remaining ticks are
not processed. -/
def runPoller (resolve : String → Option String) (st : PollerSt) :
    List (Except String (PlaylistKind × List (Option Segment))) → PollerSt
  | [] => st
  | f :: fs =>
    if st.halted then st
    else runPoller resolve (pollStep resolve st f) fs

/-- Embedding of `Downloader.Halt` (`downloader.go` lines 113-116): it
unconditionally executes `close(d.halt)`.  `closed` is whether the halt
channel is already closed; closing a closed Go channel is a run-time panic,
modelled as `none`.  On success the channel is closed (`some true`). -/
def haltCall (closed : Bool) : Option Bool :=
  if closed then none else some true

/-- Whether one poll fails, as a function of the scripted fetch result alone
(`getSegments` fails exactly on a transport/decode error or a non-media
playlist, independently of the seen-set). -/
def pollFails (fetched : Except String (PlaylistKind × List (Option Segment))) : Bool :=
  match fetched with
  | .error _ => true
  | .ok (kind, _) => !(kind = PlaylistKind.media)

/-- The error-counter automaton of the polling loop, abstracted to the list of
per-tick failure flags: a failed tick increments the counter and halts when it
exceeds `playlistDownloadErrorLimit`; a successful tick resets it. -/
def haltsFrom (c : Nat) : List Bool → Bool
  | [] => false
  | b :: rest =>
    if b then
      if c + 1 > playlistDownloadErrorLimit then true else haltsFrom (c + 1) rest
    else
      haltsFrom 0 rest

/-- Specification-side predicate: the tick-failure list contains somewhere a
run of `playlistDownloadErrorLimit + 1` (= 31) consecutive failures. -/
def containsFailRun (l : List Bool) : Bool :=
  match l with
  | [] => false
  | _ :: rest =>
    (decide (l.take (playlistDownloadErrorLimit + 1) =
      List.replicate (playlistDownloadErrorLimit + 1) true)) || containsFailRun rest

/-- The opening-brace byte scanned for by `extractOperations`. -/
def lbrace : Char := Char.ofNat 123

/-- The closing-brace byte scanned for by `extractOperations`. -/
def rbrace : Char := Char.ofNat 125

/-- The marker `extractOperations` searches for: `operationName:`. -/
def opMarker : List Char := "operationName:".data

/-- `strings.Index` over character lists: the first index at which `pat`
occurs as a prefix of the remainder, `none` when absent (Go returns -1). -/
def listIndexOf (pat : List Char) : List Char → Option Nat
  | [] => if pat.isPrefixOf ([] : List Char) then some 0 else none
  | s@(_ :: t) =>
    if pat.isPrefixOf s then some 0 else (listIndexOf pat t).map (· + 1)

/-- `strings.LastIndexByte` over character lists: the last index holding `c`,
`none` when absent (Go returns -1). -/
def lastIndexOfChar (c : Char) : List Char → Option Nat
  | [] => none
  | a :: t =>
    match lastIndexOfChar c t with
    | some i => some (i + 1)
    | none => if a = c then some 0 else none

/-- The inner brace-matching loop of `extractOperations` (`twitter.go` lines
495-504): `for e <= len(src) && nest > 0 { switch src[e] ... ; e += 1 }`.
Returns the final `e` when the nesting level reaches zero.  The Go condition
admits `e == len(src)`, at which the access `src[e]` is an index-out-of-range
panic, modelled as `none`.  The fuel argument only bounds the recursion; the
callers pass `src.length + 1`, which the loop (whose `e` strictly increases)
can never exhaust. -/
def braceScan (src : List Char) : Nat → Nat → Nat → Option Nat
  | 0, _, _ => none
  | fuel + 1, e, nest =>
    if nest = 0 then some e
    else if h : e < src.length then
      let c := src.get ⟨e, h⟩
      let nest' := if c = lbrace then nest + 1 else if c = rbrace then nest - 1 else nest
      braceScan src fuel (e + 1) nest'
    else if e = src.length then none
    else some e

/-- Go map assignment `operations[op.OperationName] = &op` on the association
list model: the new binding shadows and removes any previous one. -/
def insertOp (m : List (String × Operation)) (k : String) (v : Operation) :
    List (String × Operation) :=
  (k, v) :: m.filter (fun p => p.1 ≠ k)

/-- The outer loop of `extractOperations` (`twitter.go` lines 487-537).  `pf`
scripts the black-box structured-object extractor (the `otto` JS parser plus
the property walk of lines 507-530): given the parenthesised fragment it
returns the `Operation` whose string-literal fields were found, or `none` for
a parse error (on which the Go code `break`s, returning what was collected).
Each iteration finds the next `operationName:` marker, takes the last `{`
before it (Go index -1 = `Option.none` here), runs the brace scan from the
following position with nesting level 1, slices `src[s:e]`, and recurses on
`src[e:]`.  Two Go panics are modelled as `none`: the brace scan reading
`src[len(src)]`, and the slice `src[-1:e]` when no `{` precedes the marker.
Entries are kept only when all three fields are non-empty.  Fuel
`src.length + 1` is supplied by `extractOperations` and cannot run out, since
every recursive call drops `e ≥ 1` characters. -/
def extractLoop (pf : String → Option Operation) :
    Nat → List Char → List (String × Operation) → Option (List (String × Operation))
  | 0, _, _ => none
  | fuel + 1, src, acc =>
    match listIndexOf opMarker src with
    | none => some acc
    | some idx =>
      let s := lastIndexOfChar lbrace (src.take idx)
      let e0 := match s with | some i => i + 1 | none => 0
      match braceScan src (src.length + 1) e0 1 with
      | none => none
      | some e =>
        match s with
        | none => none
        | some si =>
          let obj := String.mk ('(' :: ((src.drop si).take (e - si)) ++ [')'])
          match pf obj with
          | none => some acc
          | some op =>
            let acc' :=
              if op.queryID ≠ "" ∧ op.operationType ≠ "" ∧ op.operationName ≠ "" then
                insertOp acc op.operationName op
              else acc
            extractLoop pf fuel (src.drop e) acc'

/-- Embedding of `extractOperations` (`twitter.go` lines 484-540), abstracted
over the JS-fragment extractor `pf`.  `some m` is a normal return with the
discovered name-to-operation mapping; `none` is a Go run-time panic. -/
def extractOperations (pf : String → Option Operation) (src : String) :
    Option (List (String × Operation)) :=
  extractLoop pf (src.data.length + 1) src.data []

/-! ## Theorems -/

/-! Helper lemmas about the capture engine. -/

/-- Unfolding of `pollStep` on a transport/decode failure. -/
theorem pollStep_error (resolve : String → Option String) (st : PollerSt) (e : String) :
    pollStep resolve st (Except.error e) =
      if st.errCount + 1 > playlistDownloadErrorLimit then
        { st with errCount := st.errCount + 1, halted := true }
      else { st with errCount := st.errCount + 1 } := rfl

/-- Unfolding of `pollStep` on a master playlist (a poll-level failure). -/
theorem pollStep_master (resolve : String → Option String) (st : PollerSt)
    (segs : List (Option Segment)) :
    pollStep resolve st (Except.ok (PlaylistKind.master, segs)) =
      if st.errCount + 1 > playlistDownloadErrorLimit then
        { st with errCount := st.errCount + 1, halted := true }
      else { st with errCount := st.errCount + 1 } := rfl

/-- Unfolding of `pollStep` on a media playlist (a successful poll). -/
theorem pollStep_media (resolve : String → Option String) (st : PollerSt)
    (segs : List (Option Segment)) :
    pollStep resolve st (Except.ok (PlaylistKind.media, segs)) =
      { st with seen := (getSegmentsLoop resolve st.seen segs).1, errCount := 0,
                queued := st.queued ++ (getSegmentsLoop resolve st.seen segs).2 } := rfl

/-- Once the engine has halted itself, the remaining ticks are not processed. -/
theorem runPoller_halted (resolve : String → Option String) :
    ∀ (fs : List (Except String (PlaylistKind × List (Option Segment)))) (st : PollerSt),
      st.halted = true → runPoller resolve st fs = st
  | [], _, _ => rfl
  | _ :: _, _, h => by simp [runPoller, h]

/-- The segment loop preserves freedom from duplicates of the seen list: an
identifier is stored only when it is absent. -/
theorem getSegmentsLoop_nodup (resolve : String → Option String) :
    ∀ (segs : List (Option Segment)) (seen : List Nat), seen.Nodup →
      ((getSegmentsLoop resolve seen segs).1).Nodup
  | [], _, h => h
  | none :: rest, seen, h => getSegmentsLoop_nodup resolve rest seen h
  | some seg :: rest, seen, h => by
    by_cases hm : seg.seqId ∈ seen
    · simpa [getSegmentsLoop, hm] using getSegmentsLoop_nodup resolve rest seen h
    · simp only [getSegmentsLoop, hm, if_false]
      exact getSegmentsLoop_nodup resolve rest (seg.seqId :: seen)
        (List.nodup_cons.mpr ⟨hm, h⟩)

/-- Each pass of the segment loop performs exactly one store per enqueued URL:
the seen list grows by exactly the number of URLs returned. -/
theorem getSegmentsLoop_length (resolve : String → Option String) :
    ∀ (segs : List (Option Segment)) (seen : List Nat),
      (getSegmentsLoop resolve seen segs).1.length =
        seen.length + (getSegmentsLoop resolve seen segs).2.length
  | [], seen => by simp [getSegmentsLoop]
  | none :: rest, seen => by
    simpa [getSegmentsLoop] using getSegmentsLoop_length resolve rest seen
  | some seg :: rest, seen => by
    by_cases hm : seg.seqId ∈ seen
    · simpa [getSegmentsLoop, hm] using getSegmentsLoop_length resolve rest seen
    · have ih := getSegmentsLoop_length resolve rest (seg.seqId :: seen)
      simp only [getSegmentsLoop, hm, if_false]
      simp only [List.length_cons] at ih ⊢
      omega

/-- The seen list of the polling goroutine stays duplicate-free. -/
theorem runPoller_nodup (resolve : String → Option String) :
    ∀ (fs : List (Except String (PlaylistKind × List (Option Segment)))) (st : PollerSt),
      st.seen.Nodup → (runPoller resolve st fs).seen.Nodup
  | [], _, h => h
  | f :: fs, st, h => by
    by_cases hh : st.halted = true
    · simpa [runPoller, hh] using h
    · simp only [runPoller, hh, if_false]
      apply runPoller_nodup resolve fs
      cases f with
      | error e => rw [pollStep_error]; split <;> exact h
      | ok p =>
        obtain ⟨kind, segs⟩ := p
        cases kind with
        | media => rw [pollStep_media]; exact getSegmentsLoop_nodup resolve segs st.seen h
        | master => rw [pollStep_master]; split <;> exact h

/-- Across a session, the number of values sent on the download channel equals
the number of identifiers stored in the seen-set. -/
theorem runPoller_queued_length (resolve : String → Option String) :
    ∀ (fs : List (Except String (PlaylistKind × List (Option Segment)))) (st : PollerSt),
      st.queued.length = st.seen.length →
      (runPoller resolve st fs).queued.length = (runPoller resolve st fs).seen.length
  | [], _, h => h
  | f :: fs, st, h => by
    by_cases hh : st.halted = true
    · simpa [runPoller, hh] using h
    · simp only [runPoller, hh, if_false]
      apply runPoller_queued_length resolve fs
      cases f with
      | error e => rw [pollStep_error]; split <;> exact h
      | ok p =>
        obtain ⟨kind, segs⟩ := p
        cases kind with
        | media =>
          rw [pollStep_media]
          have hl := getSegmentsLoop_length resolve segs st.seen
          simp only [List.length_append]
          omega
        | master => rw [pollStep_master]; split <;> exact h

/-- A window of length `playlistDownloadErrorLimit + 1` that starts inside the
leading trues of `replicate c true ++ false :: rest` (with `c` shorter than
the window) always covers the `false`, so it is never all-true. -/
theorem take_mixed_ne (k c : Nat) (rest : List Bool) (hck : c < k) :
    (List.replicate c true ++ false :: rest).take k ≠ List.replicate k true := by
  intro he
  have h1 : (List.replicate c true ++ false :: rest).take k =
      List.replicate c true ++ (false :: rest).take (k - c) := by
    rw [List.take_append_eq_append_take]
    congr 1
    · exact List.take_of_length_le (by simp [Nat.le_of_lt hck])
    · congr 1
      simp
  have h2 : (false :: rest).take (k - c) = false :: rest.take (k - c - 1) := by
    have hkc : k - c = (k - c - 1) + 1 := by omega
    rw [hkc, List.take_succ_cons]
    simp
  have h3 : List.replicate k true = List.replicate c true ++ List.replicate (k - c) true := by
    rw [← List.replicate_add]
    congr 1
    omega
  rw [h1, h2, h3] at he
  have h4 := List.append_cancel_left he
  have h5 : List.replicate (k - c) true = true :: List.replicate (k - c - 1) true := by
    have hkc : k - c = (k - c - 1) + 1 := by omega
    rw [hkc, List.replicate_succ]
    simp
  rw [h5] at h4
  simp at h4

/-- A list shorter than the failure window cannot contain a failure run. -/
theorem containsFailRun_short :
    ∀ (l : List Bool), l.length ≤ playlistDownloadErrorLimit → containsFailRun l = false
  | [], _ => rfl
  | b :: rest, h => by
    have hne : ¬((b :: rest).take (playlistDownloadErrorLimit + 1) =
        List.replicate (playlistDownloadErrorLimit + 1) true) := by
      intro he
      have hlen := congrArg List.length he
      rw [List.length_take, List.length_replicate, List.length_cons] at hlen
      have hle : playlistDownloadErrorLimit + 1 ≤ rest.length + 1 :=
        min_eq_left_iff.mp hlen
      rw [List.length_cons] at h
      omega
    simp only [containsFailRun, decide_eq_false hne, Bool.false_or]
    exact containsFailRun_short rest (by rw [List.length_cons] at h; omega)

/-- A list whose leading window is all-true contains a failure run. -/
theorem containsFailRun_of_take (l : List Bool)
    (h : l.take (playlistDownloadErrorLimit + 1) =
      List.replicate (playlistDownloadErrorLimit + 1) true) :
    containsFailRun l = true := by
  cases l with
  | nil =>
    exfalso
    have := congrArg List.length h
    simp at this
  | cons b rest =>
    simp only [containsFailRun, h]
    simp

/-- Rewriting a block of `c` copies of `b` followed by one more `b`. -/
theorem replicate_append_cons (c : Nat) (b : Bool) (rest : List Bool) :
    List.replicate c b ++ b :: rest = List.replicate (c + 1) b ++ rest := by
  rw [List.replicate_succ', List.append_assoc]
  rfl

/-- At most `playlistDownloadErrorLimit` leading trues followed by a `false`
contribute nothing to `containsFailRun`. -/
theorem containsFailRun_skip :
    ∀ (c : Nat), c ≤ playlistDownloadErrorLimit → ∀ (rest : List Bool),
      containsFailRun (List.replicate c true ++ false :: rest) = containsFailRun rest
  | 0, _, rest => by
    have hne := take_mixed_ne (playlistDownloadErrorLimit + 1) 0 rest (by omega)
    simp only [List.replicate_zero, List.nil_append] at hne ⊢
    simp only [containsFailRun, decide_eq_false hne, Bool.false_or]
  | c + 1, h, rest => by
    have hne := take_mixed_ne (playlistDownloadErrorLimit + 1) (c + 1) rest (by omega)
    rw [List.replicate_succ, List.cons_append] at hne ⊢
    simp only [containsFailRun, decide_eq_false hne, Bool.false_or]
    exact containsFailRun_skip c (by omega) rest

/-- The consecutive-error automaton halts exactly when the tick-failure list
contains a run of `playlistDownloadErrorLimit + 1` consecutive failures (the
counter value `c` standing for that many failures already accumulated). -/
theorem haltsFrom_eq_containsFailRun :
    ∀ (l : List Bool) (c : Nat), c ≤ playlistDownloadErrorLimit →
      haltsFrom c l = containsFailRun (List.replicate c true ++ l)
  | [], c, h => by
    have h1 : containsFailRun (List.replicate c true ++ []) = false := by
      rw [List.append_nil]
      exact containsFailRun_short _ (by rw [List.length_replicate]; exact h)
    rw [h1]
    rfl
  | b :: rest, c, h => by
    cases b with
    | true =>
      by_cases hc : c + 1 > playlistDownloadErrorLimit
      · have hceq : c = playlistDownloadErrorLimit := by omega
        subst hceq
        simp only [haltsFrom, if_true, if_pos hc]
        symm
        apply containsFailRun_of_take
        rw [replicate_append_cons]
        have := List.take_left
          (List.replicate (playlistDownloadErrorLimit + 1) true) rest
        rwa [List.length_replicate] at this
      · simp only [haltsFrom, if_true, if_neg hc]
        rw [replicate_append_cons]
        exact haltsFrom_eq_containsFailRun rest (c + 1) (by omega)
    | false =>
      simp only [haltsFrom, if_false]
      rw [containsFailRun_skip c h rest]
      have := haltsFrom_eq_containsFailRun rest 0 (by omega)
      simpa using this

/-- The halted flag after a run of the polling goroutine from a non-halted
state equals the automaton's verdict on the per-tick failure flags. -/
theorem runPoller_halted_eq (resolve : String → Option String) :
    ∀ (fs : List (Except String (PlaylistKind × List (Option Segment)))) (st : PollerSt),
      st.halted = false →
      (runPoller resolve st fs).halted = haltsFrom st.errCount (fs.map pollFails)
  | [], st, h => by simpa [runPoller, haltsFrom] using h
  | f :: fs, st, h => by
    simp only [runPoller, h, Bool.false_eq_true, if_false, List.map_cons]
    cases f with
    | error e =>
      rw [pollStep_error]
      have hp : pollFails (Except.error e :
          Except String (PlaylistKind × List (Option Segment))) = true := rfl
      rw [hp]
      simp only [haltsFrom, if_true]
      by_cases hc : st.errCount + 1 > playlistDownloadErrorLimit
      · rw [if_pos hc, if_pos hc, runPoller_halted]
        rfl
      · rw [if_neg hc, if_neg hc]
        exact runPoller_halted_eq resolve fs _ h
    | ok p =>
      obtain ⟨kind, segs⟩ := p
      cases kind with
      | media =>
        rw [pollStep_media]
        have hp : pollFails (Except.ok (PlaylistKind.media, segs) :
            Except String (PlaylistKind × List (Option Segment))) = false := rfl
        rw [hp]
        simp only [haltsFrom, if_false]
        exact runPoller_halted_eq resolve fs _ h
      | master =>
        rw [pollStep_master]
        have hp : pollFails (Except.ok (PlaylistKind.master, segs) :
            Except String (PlaylistKind × List (Option Segment))) = true := rfl
        rw [hp]
        simp only [haltsFrom, if_true]
        by_cases hc : st.errCount + 1 > playlistDownloadErrorLimit
        · rw [if_pos hc, if_pos hc, runPoller_halted]
          rfl
        · rw [if_neg hc, if_neg hc]
          exact runPoller_halted_eq resolve fs _ h

/-- C1 (counterexample): a response with HTTP status 200 whose body carries a
non-empty `errors` list is classified as success by `parseResponse` — the
status-200 check returns `nil` before the error list is consulted — so the
claim that a non-empty errors list never yields success is false. -/
theorem c1_counterexample :
    parseResponse 200 "200 OK" (Except.ok [⟨"Some error", "Unknown"⟩]) =
      ParseResult.success := rfl

/-- C1 (amended): `parseResponse` on a decodable body yields success iff the
status is 200 (regardless of the errors list) or the status is neither 4xx nor
5xx and the errors list is empty; for any non-200 status, a non-empty errors
list or a 4xx/5xx status yields a `QueryError` carrying both the structured
error list and the raw status. -/
theorem c1_amended_classification (code : Nat) (st : String) (errs : List ErrEntry) :
    (parseResponse code st (Except.ok errs) = ParseResult.success ↔
      code = 200 ∨ (errs = [] ∧ code / 100 ≠ 4 ∧ code / 100 ≠ 5)) ∧
    (code ≠ 200 → (errs ≠ [] ∨ code / 100 = 4 ∨ code / 100 = 5) →
      parseResponse code st (Except.ok errs) = ParseResult.queryErr errs code st) := by
  have hbase : parseResponse code st (Except.ok errs) =
      if code = 200 then ParseResult.success
      else if 0 < errs.length ∨ code / 100 = 4 ∨ code / 100 = 5 then
        ParseResult.queryErr errs code st
      else ParseResult.success := rfl
  rw [hbase]
  have hcls : 0 < errs.length ∨ code / 100 = 4 ∨ code / 100 = 5 ↔
      errs ≠ [] ∨ code / 100 = 4 ∨ code / 100 = 5 := by
    rw [List.length_pos]
  constructor
  · split_ifs with h200 hq
    · simp [h200]
    · constructor
      · intro h; exact absurd h (by simp)
      · rintro (h | ⟨he, h4, h5⟩)
        · exact absurd h h200
        · rcases hcls.mp hq with h | h | h
          · exact absurd he h
          · exact absurd h h4
          · exact absurd h h5
    · push_neg at hq
      refine ⟨fun _ => Or.inr ⟨?_, hq.2.1, hq.2.2⟩, fun _ => rfl⟩
      exact List.length_eq_zero.mp (Nat.le_antisymm hq.1 (Nat.zero_le _))
  · intro h200 hq
    rw [if_neg h200, if_pos (hcls.mpr hq)]

/-- C1 (witness): the amended classification applied to a 500 response with a
single error entry. -/
theorem c1_amended_classification_witness :
    (500 : Nat) ≠ 200 ∧
    ([(⟨"oops", "Internal"⟩ : ErrEntry)] ≠ []
      ∨ (500 : Nat) / 100 = 4 ∨ (500 : Nat) / 100 = 5) ∧
    parseResponse 500 "500 Internal Server Error"
        (Except.ok [⟨"oops", "Internal"⟩]) =
      ParseResult.queryErr [⟨"oops", "Internal"⟩] 500 "500 Internal Server Error" :=
  ⟨by decide, Or.inl (by simp),
    (c1_amended_classification 500 "500 Internal Server Error"
      [⟨"oops", "Internal"⟩]).2 (by decide) (Or.inl (by simp))⟩

/-- C2 (counterexample): with a script in which the first two attempts are
both rejected with the bad-guest-token message and both refreshes succeed,
`Client.Query` does not surface the second auth failure with one refresh —
it refreshes a second time, re-issues a third attempt and returns its
success, contradicting the at-most-one-retry claim. -/
theorem c2_counterexample :
    queryRun
        [ParseResult.queryErr [⟨"Bad guest token", ""⟩] 403 "403 Forbidden",
         ParseResult.queryErr [⟨"Bad guest token", ""⟩] 403 "403 Forbidden",
         ParseResult.success]
        [none, none] =
      some (QueryOutcome.attempt ParseResult.success, 2) ∧
    queryRun
        [ParseResult.queryErr [⟨"Bad guest token", ""⟩] 403 "403 Forbidden",
         ParseResult.queryErr [⟨"Bad guest token", ""⟩] 403 "403 Forbidden",
         ParseResult.success]
        [none, none] ≠
      some (QueryOutcome.attempt
        (ParseResult.queryErr [⟨"Bad guest token", ""⟩] 403 "403 Forbidden"), 1) := by
  exact ⟨rfl, by decide⟩

/-- C2 (amended): `Client.Query` has no retry cap: each auth-rejected attempt
triggers one refresh and a full recursive re-issue, so when the call returns
at all, the surfaced outcome is either a refresh failure or the first attempt
result that is not an auth-rejection, the refresh count equals the index of
that attempt, and an auth-rejection is never surfaced. -/
theorem c2_amended_unbounded_retry (atts : List ParseResult)
    (refs : List (Option String)) (o : QueryOutcome) (n : Nat)
    (h : queryRun atts refs = some (o, n)) :
    (∀ a, o = QueryOutcome.attempt a →
      isAuthReject a = false ∧ atts[n]? = some a ∧
        ∀ i, i < n → ∃ ai, atts[i]? = some ai ∧ isAuthReject ai = true) ∧
    (∀ e, o = QueryOutcome.refreshErr e → 1 ≤ n ∧ refs[n - 1]? = some (some e)) := by
  induction atts generalizing refs o n with
  | nil => simp [queryRun] at h
  | cons a as ih =>
    cases ha : isAuthReject a with
    | false =>
      simp only [queryRun, ha, if_false, Bool.false_eq_true, Option.some.injEq,
        Prod.mk.injEq] at h
      obtain ⟨ho, hn⟩ := h
      subst ho; subst hn
      refine ⟨fun a' h' => ?_, fun e' h' => by simp at h'⟩
      cases h'
      exact ⟨ha, by simp, fun i hi => absurd hi (Nat.not_lt_zero i)⟩
    | true =>
      cases refs with
      | nil => simp [queryRun, ha] at h
      | cons r rs =>
        cases r with
        | some e =>
          simp only [queryRun, ha, if_true, Option.some.injEq, Prod.mk.injEq] at h
          obtain ⟨ho, hn⟩ := h
          subst ho; subst hn
          refine ⟨fun a' h' => by simp at h', fun e' h' => ?_⟩
          cases h'
          exact ⟨Nat.le_refl 1, by simp⟩
        | none =>
          simp only [queryRun, ha, if_true] at h
          match hq : queryRun as rs with
          | none => rw [hq] at h; simp at h
          | some (o', n') =>
            rw [hq] at h
            simp only [Option.some.injEq, Prod.mk.injEq] at h
            obtain ⟨ho, hn⟩ := h
            subst ho; subst hn
            obtain ⟨ih1, ih2⟩ := ih rs o' n' hq
            constructor
            · intro a' h'
              obtain ⟨hb, hg, hprev⟩ := ih1 a' h'
              refine ⟨hb, by simpa using hg, ?_⟩
              intro i hi
              match i with
              | 0 => exact ⟨a, by simp, ha⟩
              | j + 1 =>
                obtain ⟨ai, h1, h2⟩ := hprev j (Nat.lt_of_succ_lt_succ hi)
                exact ⟨ai, by simpa using h1, h2⟩
            · intro e' h'
              obtain ⟨h1, h2⟩ := ih2 e' h'
              refine ⟨Nat.le_succ_of_le h1, ?_⟩
              have hn1 : n' + 1 - 1 = (n' - 1) + 1 := by omega
              rw [hn1]
              simpa using h2

/-- C2 (witness): the amended theorem applied to a one-attempt script that
succeeds immediately with no refresh. -/
theorem c2_amended_unbounded_retry_witness :
    queryRun [ParseResult.success] [] = some (QueryOutcome.attempt ParseResult.success, 0) ∧
    (isAuthReject ParseResult.success = false ∧
      [ParseResult.success][0]? = some ParseResult.success) :=
  ⟨rfl,
    by
      have h := (c2_amended_unbounded_retry [ParseResult.success] []
        (QueryOutcome.attempt ParseResult.success) 0 rfl).1 ParseResult.success rfl
      exact ⟨h.1, h.2.1⟩⟩

/-- C3: a `Client.Query` call whose first attempt is auth-rejected, whose
guest-token refresh succeeds, and whose second attempt is not auth-rejected,
returns exactly the second attempt's outcome with exactly one refresh
performed; the intermediate auth failure is never surfaced. -/
theorem c3_retry_transparent (a1 a2 : ParseResult) (as : List ParseResult)
    (rs : List (Option String))
    (h1 : isAuthReject a1 = true) (h2 : isAuthReject a2 = false) :
    queryRun (a1 :: a2 :: as) (none :: rs) = some (QueryOutcome.attempt a2, 1) := by
  simp [queryRun, h1, h2]

/-- C3 (witness): a concrete auth-rejected first attempt followed by a
successful second attempt. -/
theorem c3_retry_transparent_witness :
    isAuthReject (ParseResult.queryErr [⟨"Bad guest token", ""⟩] 403 "403 Forbidden") = true ∧
    isAuthReject ParseResult.success = false ∧
    queryRun
        [ParseResult.queryErr [⟨"Bad guest token", ""⟩] 403 "403 Forbidden",
         ParseResult.success] [none] =
      some (QueryOutcome.attempt ParseResult.success, 1) :=
  ⟨rfl, rfl,
    c3_retry_transparent
      (ParseResult.queryErr [⟨"Bad guest token", ""⟩] 403 "403 Forbidden")
      ParseResult.success [] [] rfl rfl⟩

/-- C4 (counterexample): when bearer-token derivation fails after operation
discovery succeeded, `Client.Initialize` returns the error but the client's
`operations` field keeps the newly installed catalog (and `bearerToken` has
been overwritten with the empty string): partial state is not discarded. -/
theorem c4_counterexample :
    initClient
        ⟨[("Old", ⟨"q0", "Old", "query"⟩)], "B", "G"⟩
        ⟨Except.ok (), Except.ok "https://x/main.js", Except.ok "https://x/api.js",
         Except.ok [("New", ⟨"q1", "New", "query"⟩)],
         Except.error "bearer token not found", Except.ok "gt"⟩ =
      (some "bearer token not found",
       ⟨[("New", ⟨"q1", "New", "query"⟩)], "", "G"⟩) ∧
    (⟨[("New", ⟨"q1", "New", "query"⟩)], "", "G"⟩ : ClientState) ≠
      ⟨[("Old", ⟨"q0", "Old", "query"⟩)], "B", "G"⟩ :=
  ⟨rfl, by decide⟩

/-- C4 (amended): any failing step makes `Client.Initialize` return that
step's error, but state assigned by earlier completed steps persists: if the
first four steps succeed and bearer-token derivation fails, the client ends
with the newly discovered operations catalog installed, the bearer token
overwritten by the empty string, and the guest token unchanged. -/
theorem c4_amended_partial_state (st : ClientState) (sc : InitScript)
    (ops : List (String × Operation)) (e : String)
    (h1 : sc.indexRes = Except.ok ())
    (h2 : ∃ m, sc.mainJsRes = Except.ok m)
    (h3 : ∃ a, sc.apiJsRes = Except.ok a)
    (h4 : sc.opsRes = Except.ok ops)
    (h5 : sc.bearerRes = Except.error e) :
    initClient st sc =
      (some e, { st with operations := ops, bearerToken := "" }) := by
  obtain ⟨m, h2⟩ := h2
  obtain ⟨a, h3⟩ := h3
  unfold initClient
  rw [h1, h2, h3, h4, h5]

/-- C4 (witness): the amended theorem applied to a concrete client and
script. -/
theorem c4_amended_partial_state_witness :
    initClient
        ⟨[], "B0", "G0"⟩
        ⟨Except.ok (), Except.ok "m", Except.ok "a",
         Except.ok [("New", ⟨"q1", "New", "query"⟩)],
         Except.error "bearer token not found", Except.ok "gt"⟩ =
      (some "bearer token not found",
       ⟨[("New", ⟨"q1", "New", "query"⟩)], "", "G0"⟩) :=
  c4_amended_partial_state ⟨[], "B0", "G0"⟩
    ⟨Except.ok (), Except.ok "m", Except.ok "a",
     Except.ok [("New", ⟨"q1", "New", "query"⟩)],
     Except.error "bearer token not found", Except.ok "gt"⟩
    [("New", ⟨"q1", "New", "query"⟩)] "bearer token not found"
    rfl ⟨"m", rfl⟩ ⟨"a", rfl⟩ rfl rfl

/-- C9: on the input consisting of just the marker `operationName:` — a
malformed fragment with no preceding opening brace and no closing brace —
`extractOperations` does not skip the fragment: the brace-matching loop walks
past the end of the source and reads `src[len(src)]`, a run-time panic
(modelled as `none`), whatever the black-box fragment extractor does.  The
spec's required behaviour (silent skip, scan never aborts abnormally) is the
evident intent; the loop bound `e <= len(src)` and the unguarded `-1` from
`strings.LastIndexByte` are slips in the code. -/
theorem c9_malformed_marker_panics (pf : String → Option Operation) :
    extractOperations pf "operationName:" = none := rfl

/-- C5: per capture session each sequence identifier is enqueued for download
at most once — the seen list stays duplicate-free and exactly one channel send
is paired with each stored identifier — and on the sliding-window example
(poll 1 = [S1, S2], poll 2 = [S2, S3]) the enqueue sequence is S1, S2, S3 with
S2 enqueued exactly once. -/
theorem c5_dedup (resolve : String → Option String)
    (fs : List (Except String (PlaylistKind × List (Option Segment)))) :
    ((runPoller resolve startSt fs).seen.Nodup ∧
      (runPoller resolve startSt fs).queued.length =
        (runPoller resolve startSt fs).seen.length) ∧
    runPoller (fun u => some u) startSt
        [Except.ok (PlaylistKind.media, [some ⟨1, "s1"⟩, some ⟨2, "s2"⟩]),
         Except.ok (PlaylistKind.media, [some ⟨2, "s2"⟩, some ⟨3, "s3"⟩])] =
      { seen := [3, 2, 1], errCount := 0, halted := false,
        queued := [some "s1", some "s2", some "s3"] } :=
  ⟨⟨runPoller_nodup resolve fs startSt List.nodup_nil,
    runPoller_queued_length resolve fs startSt rfl⟩, rfl⟩

/-- C6: starting from a fresh engine, the halt signal is raised by the engine
itself exactly when the tick sequence contains a run of 31 consecutive poll
failures (failure increments the counter, success resets it, and the halt
fires when the counter exceeds the threshold 30); in particular 31 consecutive
failures trigger the automatic halt and 30 or fewer consecutive failures never
do. -/
theorem c6_halt_threshold (resolve : String → Option String)
    (fs : List (Except String (PlaylistKind × List (Option Segment)))) :
    ((runPoller resolve startSt fs).halted = true ↔
      containsFailRun (fs.map pollFails) = true) ∧
    (runPoller resolve startSt
        (List.replicate (playlistDownloadErrorLimit + 1)
          (Except.error "e"))).halted = true ∧
    (∀ n, n ≤ playlistDownloadErrorLimit →
      (runPoller resolve startSt (List.replicate n (Except.error "e"))).halted
        = false) := by
  have hmain : ∀ (gs : List (Except String (PlaylistKind × List (Option Segment)))),
      (runPoller resolve startSt gs).halted = containsFailRun (gs.map pollFails) := by
    intro gs
    rw [runPoller_halted_eq resolve gs startSt rfl]
    have := haltsFrom_eq_containsFailRun (gs.map pollFails) 0 (by omega)
    simpa using this
  have hp : pollFails (Except.error "e" :
      Except String (PlaylistKind × List (Option Segment))) = true := rfl
  refine ⟨by rw [hmain], ?_, ?_⟩
  · rw [hmain]
    apply containsFailRun_of_take
    rw [List.map_replicate, hp]
    exact List.take_of_length_le (by rw [List.length_replicate])
  · intro n hn
    rw [hmain, List.map_replicate, hp]
    exact containsFailRun_short _ (by rw [List.length_replicate]; exact hn)

/-- C6 (witness): five consecutive failures do not halt the engine. -/
theorem c6_halt_threshold_witness :
    (5 : Nat) ≤ playlistDownloadErrorLimit ∧
    (runPoller (fun u => some u) startSt
      (List.replicate 5 (Except.error "e"))).halted = false :=
  ⟨by decide, (c6_halt_threshold (fun u => some u) []).2.2 5 (by decide)⟩

/-- C7 (counterexample): after the engine has self-halted (31 consecutive poll
failures), a caller invoking `Downloader.Halt` is not detected and deflected —
`close(d.halt)` executes on the already-closed channel and panics (modelled as
`none`), so no one-shot guard exists. -/
theorem c7_counterexample :
    haltCall ((runPoller (fun u => some u) startSt
        (List.replicate (playlistDownloadErrorLimit + 1)
          (Except.error "net"))).halted) = none := rfl

/-- C7 (amended): `Downloader.Halt` unconditionally closes the halt channel:
the first call succeeds, and whenever the engine has already self-halted a
further call panics with close-of-closed-channel instead of being detected;
callers must call `Halt` at most once and never after a self-halt. -/
theorem c7_amended_double_close_panics (resolve : String → Option String)
    (fs : List (Except String (PlaylistKind × List (Option Segment))))
    (h : (runPoller resolve startSt fs).halted = true) :
    haltCall false = some true ∧
    haltCall ((runPoller resolve startSt fs).halted) = none := by
  refine ⟨rfl, ?_⟩
  rw [h]
  rfl

/-- C7 (witness): the amended theorem at a 31-failure session. -/
theorem c7_amended_double_close_panics_witness :
    (runPoller (fun u => some u) startSt
        (List.replicate 31 (Except.error "net"))).halted = true ∧
    (haltCall false = some true ∧
      haltCall ((runPoller (fun u => some u) startSt
        (List.replicate 31 (Except.error "net"))).halted) = none) :=
  ⟨rfl, c7_amended_double_close_panics (fun u => some u)
    (List.replicate 31 (Except.error "net")) rfl⟩

/-- C8: a poll whose fetched playlist decodes to kind master fails with the
`invalid playlist` error before any segment is examined: the tick leaves the
seen-set and the download channel untouched and counts as one poll-level
failure. -/
theorem c8_master_rejected (resolve : String → Option String) (st : PollerSt)
    (segs : List (Option Segment)) :
    getSegments resolve st.seen (Except.ok (PlaylistKind.master, segs)) =
      Except.error "invalid playlist" ∧
    (pollStep resolve st (Except.ok (PlaylistKind.master, segs))).seen = st.seen ∧
    (pollStep resolve st (Except.ok (PlaylistKind.master, segs))).queued = st.queued ∧
    (pollStep resolve st (Except.ok (PlaylistKind.master, segs))).errCount =
      st.errCount + 1 := by
  refine ⟨rfl, ?_, ?_, ?_⟩ <;> (rw [pollStep_master]; split <;> rfl)

/-- C10: when a segment's relative URI fails to resolve against the playlist
URL, the poll still stores its sequence identifier in the seen-set (so the
segment is never retried) and still appends the nil URL to the returned list,
which `Downloader.Start` forwards to the download channel — a worker receives
a nil pointer. -/
theorem c10_unresolved_url_enqueued_nil (resolve : String → Option String)
    (st : PollerSt) (seg : Segment)
    (h1 : resolve seg.uri = none) (h2 : seg.seqId ∉ st.seen) :
    (pollStep resolve st (Except.ok (PlaylistKind.media, [some seg]))).seen =
      seg.seqId :: st.seen ∧
    (pollStep resolve st (Except.ok (PlaylistKind.media, [some seg]))).queued =
      st.queued ++ [none] := by
  have hloop : getSegmentsLoop resolve st.seen [some seg] =
      (seg.seqId :: st.seen, [none]) := by
    simp [getSegmentsLoop, h2, h1]
  constructor <;> rw [pollStep_media, hloop]

/-- C10 (witness): a concrete unresolvable segment on a fresh session. -/
theorem c10_unresolved_url_enqueued_nil_witness :
    ((fun _ : String => (none : Option String)) (Segment.mk 7 "u").uri = none) ∧
    ((Segment.mk 7 "u").seqId ∉ startSt.seen) ∧
    ((pollStep (fun _ => none) startSt
        (Except.ok (PlaylistKind.media, [some ⟨7, "u"⟩]))).seen =
      (Segment.mk 7 "u").seqId :: startSt.seen ∧
     (pollStep (fun _ => none) startSt
        (Except.ok (PlaylistKind.media, [some ⟨7, "u"⟩]))).queued =
      startSt.queued ++ [none]) :=
  ⟨rfl, by simp [startSt],
    c10_unresolved_url_enqueued_nil (fun _ => none) startSt ⟨7, "u"⟩ rfl
      (by simp [startSt])⟩

end Spacedl
